import Mathlib

/-!
# PyOpenWorm identifier derivation — verification development

A shallow embedding of the identifier logic of `PyOpenWorm/identifier_mixin.py`
(the `_IdMixin` class produced by `IdMixin`) and `PyOpenWorm/document.py`
(the `Document` class), together with the URL-to-id helper functions
`_pubmed_uri_to_pmid`, `_wormbase_uri_to_wbid` and `_doi_uri_to_doi`.

Python strings are Lean `String`s; bytes are `Nat`s below 256; Python
exceptions become an explicit `PyErr` error type and fallible code returns
`Except PyErr α`.  `hashlib.sha224` is implemented in full (FIPS 180-4) so
that derived identifiers are computed exactly as the code computes them.
-/

namespace PyOpenWorm

/-! ## Bytes and UTF-8 encoding (Python `str.encode()`) -/

/-- UTF-8 encoding of a single unicode code point (given as a `Nat`),
as the Python method `str.encode()` produces it, one to four bytes. -/
def utf8EncodeNat (n : Nat) : List Nat :=
  if n < 128 then [n]
  else if n < 2048 then [192 + n / 64, 128 + n % 64]
  else if n < 65536 then [224 + n / 4096, 128 + n / 64 % 64, 128 + n % 64]
  else [240 + n / 262144, 128 + n / 4096 % 64, 128 + n / 64 % 64, 128 + n % 64]

/-- UTF-8 encoding of a string, as a list of byte values. -/
def utf8Encode (s : String) : List Nat :=
  s.data.flatMap (fun c => utf8EncodeNat c.toNat)

/-! ## SHA-224 (`hashlib.sha224`), FIPS 180-4 -/

/-- Truncation to a 32-bit word. -/
def w32 (n : Nat) : Nat := n % 4294967296

/-- 32-bit modular addition. -/
def wadd (a b : Nat) : Nat := w32 (a + b)

/-- Right rotation of a 32-bit word by `n` places. -/
def rotr (n x : Nat) : Nat := x / 2 ^ n + x % 2 ^ n * 2 ^ (32 - n)

/-- `Ch(e,f,g)` of FIPS 180-4 (bitwise choose). -/
def ch (e f g : Nat) : Nat := Nat.xor (Nat.land e f) (Nat.land (4294967295 - w32 e) g)

/-- `Maj(a,b,c)` of FIPS 180-4 (bitwise majority). -/
def maj (a b c : Nat) : Nat := Nat.xor (Nat.land a b) (Nat.xor (Nat.land a c) (Nat.land b c))

/-- `Σ₀` of FIPS 180-4. -/
def bigSigma0 (x : Nat) : Nat := Nat.xor (rotr 2 x) (Nat.xor (rotr 13 x) (rotr 22 x))

/-- `Σ₁` of FIPS 180-4. -/
def bigSigma1 (x : Nat) : Nat := Nat.xor (rotr 6 x) (Nat.xor (rotr 11 x) (rotr 25 x))

/-- `σ₀` of FIPS 180-4. -/
def smallSigma0 (x : Nat) : Nat := Nat.xor (rotr 7 x) (Nat.xor (rotr 18 x) (x / 8))

/-- `σ₁` of FIPS 180-4. -/
def smallSigma1 (x : Nat) : Nat := Nat.xor (rotr 17 x) (Nat.xor (rotr 19 x) (x / 1024))

/-- The 64 SHA-256 round constants of FIPS 180-4 (the first 32 bits of the
fractional parts of the cube roots of the first 64 primes), in decimal. -/
def K : List Nat :=
  [1116352408, 1899447441, 3049323471, 3921009573,
   961987163, 1508970993, 2453635748, 2870763221,
   3624381080, 310598401, 607225278, 1426881987,
   1925078388, 2162078206, 2614888103, 3248222580,
   3835390401, 4022224774, 264347078, 604807628,
   770255983, 1249150122, 1555081692, 1996064986,
   2554220882, 2821834349, 2952996808, 3210313671,
   3336571891, 3584528711, 113926993, 338241895,
   666307205, 773529912, 1294757372, 1396182291,
   1695183700, 1986661051, 2177026350, 2456956037,
   2730485921, 2820302411, 3259730800, 3345764771,
   3516065817, 3600352804, 4094571909, 275423344,
   430227734, 506948616, 659060556, 883997877,
   958139571, 1322822218, 1537002063, 1747873779,
   1955562222, 2024104815, 2227730452, 2361852424,
   2428436474, 2756734187, 3204031479, 3329325298]

/-- The SHA-224 initial hash value (second 32 bits of the square roots of the
ninth through sixteenth primes). -/
structure H8 where
  a : Nat
  b : Nat
  c : Nat
  d : Nat
  e : Nat
  f : Nat
  g : Nat
  h : Nat

def sha224IV : H8 :=
  ⟨3238371032, 914150663, 812702999, 4144912697,
   4290775857, 1750603025, 1694076839, 3204075428⟩

/-- One step of extending the 16-word message schedule toward 64 words. -/
def scheduleStep (ws : List Nat) : List Nat :=
  let n := ws.length
  ws ++ [wadd (wadd (smallSigma1 (ws.getD (n - 2) 0)) (ws.getD (n - 7) 0))
              (wadd (smallSigma0 (ws.getD (n - 15) 0)) (ws.getD (n - 16) 0))]

/-- The 64-word message schedule of a 16-word block. -/
def schedule (block : List Nat) : List Nat :=
  (List.range 48).foldl (fun ws _ => scheduleStep ws) block

/-- One round of the SHA-256 compression function, consuming a pair of a
round constant and a schedule word. -/
def compressStep (st : H8) (kw : Nat × Nat) : H8 :=
  let t1 := wadd st.h (wadd (bigSigma1 st.e) (wadd (ch st.e st.f st.g) (wadd kw.1 kw.2)))
  let t2 := wadd (bigSigma0 st.a) (maj st.a st.b st.c)
  ⟨wadd t1 t2, st.a, st.b, st.c, wadd st.d t1, st.e, st.f, st.g⟩

/-- Process one 16-word block: 64 compression rounds, then add into the
running hash value. -/
def compressBlock (st : H8) (block : List Nat) : H8 :=
  let fin := (K.zip (schedule block)).foldl compressStep st
  ⟨wadd st.a fin.a, wadd st.b fin.b, wadd st.c fin.c, wadd st.d fin.d,
   wadd st.e fin.e, wadd st.f fin.f, wadd st.g fin.g, wadd st.h fin.h⟩

/-- Big-endian bytes of a 32-bit word. -/
def wordToBytes (w : Nat) : List Nat :=
  [w / 16777216 % 256, w / 65536 % 256, w / 256 % 256, w % 256]

/-- Big-endian 8-byte encoding of the bit length, for the padding tail. -/
def lenBytes (n : Nat) : List Nat :=
  [n / 2 ^ 56 % 256, n / 2 ^ 48 % 256, n / 2 ^ 40 % 256, n / 2 ^ 32 % 256,
   n / 2 ^ 24 % 256, n / 2 ^ 16 % 256, n / 2 ^ 8 % 256, n % 256]

/-- SHA padding: append `0x80`, zero bytes to 56 mod 64, then the bit length. -/
def shaPad (msg : List Nat) : List Nat :=
  let l := msg.length
  msg ++ 128 :: List.replicate ((119 - l % 64) % 64) 0 ++ lenBytes (l * 8)

/-- Group a byte list into big-endian 32-bit words, four bytes per word. -/
def bytesToWords : List Nat → List Nat
  | b0 :: b1 :: b2 :: b3 :: rest =>
      (((b0 * 256 + b1) * 256 + b2) * 256 + b3) :: bytesToWords rest
  | _ => []

/-- Split a word list into 16-word blocks; a trailing fragment shorter than
16 words cannot occur on padded input and is dropped. -/
def toBlocks : List Nat → List (List Nat)
  | w0 :: w1 :: w2 :: w3 :: w4 :: w5 :: w6 :: w7 ::
    w8 :: w9 :: w10 :: w11 :: w12 :: w13 :: w14 :: w15 :: rest =>
      [w0, w1, w2, w3, w4, w5, w6, w7, w8, w9, w10, w11, w12, w13, w14, w15] :: toBlocks rest
  | _ => []

/-- The SHA-224 digest of a byte list: process all padded blocks from the
SHA-224 IV and keep the first seven words of the final state, 28 bytes. -/
def sha224bytes (msg : List Nat) : List Nat :=
  let fin := (toBlocks (bytesToWords (shaPad msg))).foldl compressBlock sha224IV
  [fin.a, fin.b, fin.c, fin.d, fin.e, fin.f, fin.g].flatMap wordToBytes

/-- Lowercase hex digit of a value below 16. -/
def hexDigit (n : Nat) : Char :=
  if n < 10 then Char.ofNat (48 + n) else Char.ofNat (87 + n)

/-- Two lowercase hex digits of a byte. -/
def byteHex (b : Nat) : List Char := [hexDigit (b / 16), hexDigit (b % 16)]

/-- Lowercase hex string of a byte list (the Python method `.hexdigest()`). -/
def hexOfBytes (bs : List Nat) : String := ⟨bs.flatMap byteHex⟩

/-- `hashlib.sha224(s.encode()).hexdigest()` for a string `s`. -/
def sha224hex (s : String) : String := hexOfBytes (sha224bytes (utf8Encode s))


/-! ## Python exceptions -/

/-- The exceptions the embedded code can raise.  `exn` is a bare
`Exception(msg)`; `identifierMissing` is `yarom.graphObject.IdentifierMissingException`;
`indexError` is a list-index failure inside the URL helpers. -/
inductive PyErr where
  | exn (msg : String)
  | valueError (msg : String)
  | identifierMissing
  | wormbaseRetrieval (msg : String)
  | indexError
deriving DecidableEq, Repr

/-- `rdflib.term.URIRef` values are carried as their string form. -/
abbrev URIRef := String

/-! ## `six.moves.urllib.parse.quote` -/

def isAsciiLetter (c : Char) : Bool :=
  ('A' ≤ c && c ≤ 'Z') || ('a' ≤ c && c ≤ 'z')

def isAsciiDigit (c : Char) : Bool := '0' ≤ c && c ≤ '9'

/-- Characters `urllib.parse.quote` leaves as-is: the RFC 3986 unreserved
set plus the default safe character, the slash. -/
def quoteSafe (c : Char) : Bool :=
  isAsciiLetter c || isAsciiDigit c || c = '_' || c = '.' || c = '-' || c = '~' || c = '/'

/-- Uppercase hex digit of a value below 16. -/
def hexDigitUpper (n : Nat) : Char :=
  if n < 10 then Char.ofNat (48 + n) else Char.ofNat (55 + n)

/-- `%XX` escape of one byte. -/
def pctByte (b : Nat) : List Char := ['%', hexDigitUpper (b / 16), hexDigitUpper (b % 16)]

/-- `urllib.parse.quote(s)`: safe characters kept, all other characters
percent-encoded bytewise from their UTF-8 encoding. -/
def quote (s : String) : String :=
  ⟨s.data.flatMap (fun c =>
    if quoteSafe c then [c] else (utf8EncodeNat c.toNat).flatMap pctByte)⟩

/-! ## `_IdMixin` (identifier_mixin.py)

The mixin is produced per class by `IdMixin(typ, hashfunc)`; `Document` uses
the default `hashfunc`, i.e. `hashlib.sha224`, so that is the hash embedded
here.  The class attribute `rdf_namespace` is carried as a `ns : String` parameter;
`rdflib` namespace indexing `cls.rdf_namespace[suffix]` is string
concatenation `ns ++ suffix`. -/

/-- A key passed to `set_key`/`__init__`: either a Python `str` (`isinstance`
of `string_types`) or any other object, carried by its `str()` form. -/
inductive Key where
  | str (s : String)
  | other (strForm : String)
deriving DecidableEq, Repr

/-- Python `str(key)`. -/
def Key.pyStr : Key → String
  | .str s => s
  | .other f => f

/-- The identity state the mixin stores on the instance: `self._id` and
`self._key`. -/
structure IdState where
  _id : Option URIRef
  _key : Option String
deriving DecidableEq, Repr

/-- `_IdMixin.make_identifier(data)` with `data` given by its `str()` form:
hash the UTF-8 encoding with the class hash function (sha224), prefix the
hex digest with the literal tag `"a"`, and place it under the namespace;
a falsy (empty) string is a `ValueError`. -/
def make_identifier (ns : String) (strdata : String) : Except PyErr URIRef :=
  if strdata ≠ "" then
    .ok (ns ++ ("a" ++ sha224hex strdata))
  else
    .error (.valueError ("Cannot use falsy value " ++ strdata ++ " to make an identifier"))

/-- `_IdMixin.make_identifier_direct(string)`: percent-encode the string into
the namespace, no hashing.  (The `isinstance` check is enforced by the type.) -/
def make_identifier_direct (ns : String) (s : String) : URIRef :=
  ns ++ quote s

/-- `_IdMixin.set_key(key)`: a plain string takes the direct path, any other
object the hashed path; on success both `_id` and `_key` are assigned, and a
raising `make_identifier` leaves the state untouched. -/
def set_key (ns : String) (_st : IdState) (key : Key) : Except PyErr IdState :=
  match key with
  | .str s => .ok { _id := some (make_identifier_direct ns s), _key := some s }
  | .other f => do
      let i ← make_identifier ns f
      .ok { _id := some i, _key := some f }

/-- `_IdMixin.__init__(ident, key)`: giving both is an `Exception` raised
before either `self._id` or `self._key` is assigned; `ident` alone is stored
verbatim as `URIRef(ident)`; `key` alone goes through `set_key`. -/
def IdMixin_init (ns : String) (ident : Option String) (key : Option Key) :
    Except PyErr IdState :=
  if key.isSome && ident.isSome then
    .error (.exn "Only one of 'key' or 'ident' can be given to Context")
  else
    let st : IdState := { _id := ident, _key := none }
    match key with
    | none => .ok st
    | some k => set_key ns st k

/-- The `identifier` property of the mixin, with the two augment hooks supplied by
the concrete class: `self._id` if set, else the augment pair. -/
def mixinIdentifier (st : IdState) (definedAug : Bool) (idAug : Except PyErr URIRef) :
    Except PyErr URIRef :=
  match st._id with
  | some i => .ok i
  | none => if definedAug then idAug else .error .identifierMissing

/-- The `defined` property of the mixin: `self._id is not None` or the class
method `defined_augment()`. -/
def mixinDefined (st : IdState) (definedAug : Bool) : Bool :=
  st._id.isSome || definedAug

/-! ## `urllib.parse` fragments used by document.py

`urlparse` is an external library; only its `.netloc` and `.path` components
of absolute `scheme://netloc/path` URLs are consumed by the code, so only
that fragment is embedded (queries and fragments are stripped from the path
as `urlparse` does). -/

/-- Split a character list at every occurrence of a separator character,
like the Python method `str.split(sep)` for a one-character `sep`: `""` gives `[""]`. -/
def splitOnChar (sep : Char) : List Char → List (List Char)
  | [] => [[]]
  | c :: cs =>
      let rest := splitOnChar sep cs
      if c = sep then [] :: rest
      else match rest with
        | r :: rs => (c :: r) :: rs
        | [] => [[c]]

/-- First occurrence of a pattern in a character list: the characters before
it and the characters after it, or `none` when the pattern does not occur. -/
def breakOnSeq (pat : List Char) : List Char → Option (List Char × List Char)
  | [] => if pat.isEmpty then some ([], []) else none
  | c :: cs =>
      if pat.isPrefixOf (c :: cs) then some ([], (c :: cs).drop pat.length)
      else match breakOnSeq pat cs with
        | some (before, after) => some (c :: before, after)
        | none => none

/-- Whether a pattern occurs inside a character list (the Python operator `in`). -/
def containsSeq (pat : List Char) (xs : List Char) : Bool :=
  (breakOnSeq pat xs).isSome

/-- The `netloc` and `path` components of `urlparse`. -/
structure ParseResult where
  netloc : String
  path : String
deriving DecidableEq, Repr

/-- `urlparse` for the URLs the code feeds it: on `scheme://netloc/path...`,
`netloc` runs to the first `/`, `?` or `#` and `path` to the first `?` or
`#`; a string without `://` has empty `netloc` and is all path. -/
def urlparse (uri : String) : ParseResult :=
  match breakOnSeq [':', '/', '/'] uri.data with
  | some (_, rest) =>
      let netloc := rest.takeWhile (fun c => c ≠ '/' && c ≠ '?' && c ≠ '#')
      let tail := rest.drop netloc.length
      ⟨⟨netloc⟩, ⟨tail.takeWhile (fun c => c ≠ '?' && c ≠ '#')⟩⟩
  | none => ⟨"", ⟨uri.data.takeWhile (fun c => c ≠ '?' && c ≠ '#')⟩⟩

/-- `str.split(sep)` for a one-character separator, on strings. -/
def pySplit (s : String) (sep : Char) : List String :=
  (splitOnChar sep s.data).map (fun cs => ⟨cs⟩)

/-- `str.split(sep, 1)`: split only at the first occurrence. -/
def pySplitOnce (s : String) (sep : Char) : List String :=
  match breakOnSeq [sep] s.data with
  | some (before, after) => [⟨before⟩, ⟨after⟩]
  | none => [s]

/-- Python `s[:4]`. -/
def take4 (s : String) : String := ⟨s.data.take 4⟩

/-! ## URL-to-id helpers (document.py module level) -/

/-- `_pubmed_uri_to_pmid(uri)`: `str(urlparse(uri).path.split("/")[2])`,
an `IndexError` when the split has no third element. -/
def pubmed_uri_to_pmid (uri : String) : Except PyErr String :=
  match (pySplit (urlparse uri).path '/').get? 2 with
  | some seg => .ok seg
  | none => .error .indexError

/-- `_wormbase_uri_to_wbid(uri)`: `str(urlparse(uri).path.split("/")[2])`. -/
def wormbase_uri_to_wbid (uri : String) : Except PyErr String :=
  match (pySplit (urlparse uri).path '/').get? 2 with
  | some seg => .ok seg
  | none => .error .indexError

/-- `_doi_uri_to_doi(uri)`: when `doi.org` occurs in the netloc, the path
after its first `/` (`path.split("/", 1)[1]`, an `IndexError` when the path
has no `/`); otherwise `None`. -/
def doi_uri_to_doi (uri : String) : Except PyErr (Option String) :=
  let parsed := urlparse uri
  if containsSeq "doi.org".data parsed.netloc.data then
    match (pySplitOnce parsed.path '/').get? 1 with
    | some doi => .ok (some doi)
    | none => .error .indexError
  else
    .ok none

/-! ## `Document` (document.py)

`Document` extends `DataObject`, which lives outside this corpus; the pieces
of that framework the identifier logic consumes are modelled from the spec
where marked. -/

/-- Modelled from the spec: the N3 form of the identifier of a `DatatypeProperty`
value (`defined_values[0].identifier.n3()`), absent here with
`dataObject.py`/`rdflib`.  Per the end-to-end scenario of the spec, the composite
key for `pmid="24098140"` is `pmid:"24098140"`, so the N3 form of a plain value is
the value wrapped in double quotes. -/
def n3 (v : String) : String := "\"" ++ v ++ "\""

/-- Modelled from the spec: the `DatatypeProperty` value containers that
`dataObject.py` (outside this corpus) attaches to a `Document`.  Each named
slot holds zero-or-more values in insertion order; `defined_values` is that
sequence and `has_defined_value()` its nonemptiness.  `idst` is the identity
state the mixin keeps (`_id`, `_key`). -/
structure DocState where
  idst : IdState
  doi : List String
  pmid : List String
  wbid : List String
  uri : List String
  author : List String
  title : List String
  year : List String
deriving DecidableEq, Repr

/-- `getattr(self, name).defined_values` for a field name. -/
def getField (s : DocState) : String → List String
  | "doi" => s.doi
  | "pmid" => s.pmid
  | "wbid" => s.wbid
  | "uri" => s.uri
  | "author" => s.author
  | "title" => s.title
  | "year" => s.year
  | _ => []

/-- Modelled from the spec: `getattr(self, name).set(v)` appends a value to
the named slot, preserving insertion order.  An unknown name is a no-op
(unreachable from the embedded code). -/
def fieldSet (s : DocState) (name : String) (v : String) : DocState :=
  match name with
  | "doi" => { s with doi := s.doi ++ [v] }
  | "pmid" => { s with pmid := s.pmid ++ [v] }
  | "wbid" => { s with wbid := s.wbid ++ [v] }
  | "uri" => { s with uri := s.uri ++ [v] }
  | "author" => { s with author := s.author ++ [v] }
  | "title" => { s with title := s.title ++ [v] }
  | "year" => { s with year := s.year ++ [v] }
  | _ => s

/-- Modelled from the spec: `getattr(self, name).clear()` empties the slot. -/
def fieldClear (s : DocState) (name : String) : DocState :=
  match name with
  | "doi" => { s with doi := [] }
  | "pmid" => { s with pmid := [] }
  | "wbid" => { s with wbid := [] }
  | "uri" => { s with uri := [] }
  | "author" => { s with author := [] }
  | "title" => { s with title := [] }
  | "year" => { s with year := [] }
  | _ => s

/-- `self.id_precedence`, the fixed tuple of doi, pmid, wbid, uri. -/
def id_precedence : List String := ["doi", "pmid", "wbid", "uri"]

/-- `Document.defined_augment()`: some field in `id_precedence` has a
defined value. -/
def defined_augment (s : DocState) : Bool :=
  id_precedence.any (fun x => !(getField s x).isEmpty)

/-- The `for idKind in self.id_precedence` loop of `identifier_augment`,
over the remaining precedence list: the first field with a defined value
yields `make_identifier(str(idKind) + ":" + defined_values[0].identifier.n3())`. -/
def identifier_augment_from (ns : String) (s : DocState) :
    List String → Except PyErr URIRef
  | [] => .error .identifierMissing
  | idKind :: rest =>
      match getField s idKind with
      | v :: _ => make_identifier ns (idKind ++ ":" ++ n3 v)
      | [] => identifier_augment_from ns s rest

/-- `Document.identifier_augment()`. -/
def identifier_augment (ns : String) (s : DocState) : Except PyErr URIRef :=
  identifier_augment_from ns s id_precedence

/-- The `identifier` property read on a `Document`. -/
def Document_identifier (ns : String) (s : DocState) : Except PyErr URIRef :=
  mixinIdentifier s.idst (defined_augment s) (identifier_augment ns s)

/-- The `defined` property read on a `Document`. -/
def Document_defined (s : DocState) : Bool :=
  mixinDefined s.idst (defined_augment s)

/-- The keyword arguments of `Document.__init__` that the embedding covers
(`bibtex` is parsed by the external `PyOpenWorm.bibtex` module and is left
out; `ident`/`key` are forwarded to the mixin through `**kwargs`). -/
structure DocArgs where
  ident : Option String := none
  key : Option Key := none
  author : Option String := none
  uri : Option String := none
  year : Option String := none
  date : Option String := none
  title : Option String := none
  doi : Option String := none
  wbid : Option String := none
  wormbaseid : Option String := none
  wormbase : Option String := none
  pmid : Option String := none
  pubmed : Option String := none
deriving Repr

/-- The `pmid`/`pubmed` block of `Document.__init__`.  The `_tmp is None`
`ValueError` guard is dead code: `_pubmed_uri_to_pmid` returns a string or
raises `IndexError`. -/
def initPmid (a : DocArgs) (s : DocState) : Except PyErr DocState :=
  match a.pmid with
  | some p => .ok (fieldSet s "pmid" p)
  | none =>
      match a.pubmed with
      | some pub =>
          if take4 pub = "http" then do
            let p ← pubmed_uri_to_pmid pub
            .ok (fieldSet s "pmid" p)
          else .ok (fieldSet s "pmid" pub)
      | none => .ok s

/-- The value the local variable `wbid` holds after the
`wormbase`/`wormbaseid` conversion block of `Document.__init__`. -/
def initWbidArg (a : DocArgs) : Except PyErr (Option String) :=
  match a.wormbase with
  | some wb =>
      if take4 wb = "http" then do
        let w ← wormbase_uri_to_wbid wb
        pure (some w)
      else pure (some wb)
  | none =>
      match a.wormbaseid with
      | some w => pure (some w)
      | none => pure a.wbid

/-- The `wormbase`/`wormbaseid`/`wbid` block of `Document.__init__`. -/
def initWbid (a : DocArgs) (s : DocState) : Except PyErr DocState := do
  let wbid ← initWbidArg a
  match wbid with
  | some w => .ok (fieldSet s "wbid" w)
  | none => .ok s

/-- The `doi` block of `Document.__init__`: a URL is converted only when
`_doi_uri_to_doi` finds a `doi.org` netloc; otherwise the argument is stored
as given. -/
def initDoi (a : DocArgs) (s : DocState) : Except PyErr DocState :=
  match a.doi with
  | none => .ok s
  | some d =>
      if take4 d = "http" then do
        let t ← doi_uri_to_doi d
        match t with
        | some bare => .ok (fieldSet s "doi" bare)
        | none => .ok (fieldSet s "doi" d)
      else .ok (fieldSet s "doi" d)

/-- The `year`/`date`/`title`/`author`/`uri` tail of `Document.__init__`. -/
def initRest (a : DocArgs) (s : DocState) : DocState :=
  let s := match a.year with
    | some y => fieldSet s "year" y
    | none =>
        match a.date with
        | some d => fieldSet s "year" d
        | none => s
  let s := match a.title with
    | some t => fieldSet s "title" t
    | none => s
  let s := match a.author with
    | some au => fieldSet s "author" au
    | none => s
  match a.uri with
  | some u => fieldSet s "uri" u
  | none => s

/-- An empty `DocState` over a given identity state. -/
def emptyFields (idst : IdState) : DocState :=
  { idst := idst, doi := [], pmid := [], wbid := [], uri := [],
    author := [], title := [], year := [] }

/-- `Document.__init__`: the mixin runs first (through
`super().__init__(**kwargs)` and `DataObject`), then the field blocks in
source order. -/
def Document_init (ns : String) (a : DocArgs) : Except PyErr DocState := do
  let idst ← IdMixin_init ns a.ident a.key
  let s ← initPmid a (emptyFields idst)
  let s ← initWbid a s
  let s ← initDoi a s
  .ok (initRest a s)

/-! ## `Document.update_from_wormbase` -/

/-- Modelled from the spec: the shape of a WormBase `overview` record as the
enrichment consumes it — per recognized field name, either absent, or
present with `data` null, or present with data.  `authors.data` is a list of
labels; the scalar fields carry one value. -/
structure WBOverview where
  authors : Option (Option (List String)) := none
  pmid : Option (Option String) := none
  year : Option (Option String) := none
  title : Option (Option String) := none
  doi : Option (Option String) := none

/-- Modelled from the spec: the JSON document `_json_request` hands back —
`overview` present or not.  `_json_request` itself never raises (it catches
everything and returns `{}`, i.e. `none` here). -/
structure WBJson where
  overview : Option WBOverview := none

/-- The body of the `try` block applied to a retrieved overview `f`.
`self.author.has_defined_value` / `attr.has_defined_value` are bound-method
references, truthy in Python, so the clear-guard reduces to
`replace_existing` alone. -/
def applyOverview (replace_existing : Bool) (f : WBOverview) (s : DocState) : DocState :=
  let s := match f.authors with
    | some (some dat) =>
        let s := if replace_existing then fieldClear s "author" else s
        dat.foldl (fun st x => fieldSet st "author" x) s
    | _ => s
  let upd := fun (st : DocState) (fname : String) (v : Option (Option String)) =>
    match v with
    | some (some dv) =>
        let st := if replace_existing then fieldClear st fname else st
        fieldSet st fname dv
    | _ => st
  let s := upd s "pmid" f.pmid
  let s := upd s "year" f.year
  let s := upd s "title" f.title
  upd s "doi" f.doi

/-- `Document.update_from_wormbase(replace_existing)`, with the network as a
function `fetch` from URL to response.  The result pairs the updated state
with the list of URLs requested.  Exactly one attached WormBase ID performs
the request (failures inside the `try` are logged and leave the method
returning normally); zero or more than one raise `WormbaseRetrievalException`
without any request. -/
def update_from_wormbase (fetch : String → WBJson) (replace_existing : Bool)
    (s : DocState) : Except PyErr (DocState × List String) :=
  match s.wbid with
  | [wbid] =>
      let url := "http://api.wormbase.org/rest/field/paper/" ++ wbid ++ "/overview"
      let j := fetch url
      match j.overview with
      | some f => .ok (applyOverview replace_existing f s, [url])
      | none => .ok (s, [url])
  | [] =>
      .error (.wormbaseRetrieval
        ("There is no Wormbase ID attached to this Document." ++
         " So no data can be retrieved"))
  | _ =>
      .error (.wormbaseRetrieval
        ("There is more than one Wormbase ID attached to this Document." ++
         " Please try with just one Wormbase ID"))

/-! ## Sanity: the embedded hash is SHA-224 -/

/-- The embedded hash agrees with the FIPS 180-4 / `hashlib.sha224` test
vector for `"abc"`. -/
theorem sha224hex_abc :
    sha224hex "abc" = "23097d223405d8228642a477bda255b32aadbce4bda0b3f7e36c9da7" := by
  decide

/-- ...and for the two-block message of FIPS 180-4. -/
theorem sha224hex_two_blocks :
    sha224hex "abcdbcdecdefdefgefghfghighijhijkijkljklmklmnlmnomnopnopq" =
      "75388b16512776cc5dba5da1fd890150b0c6455cb4f58b1952522525" := by
  decide

/-! ## Helper lemmas -/

/-- The SHA-224 digest is 28 bytes, whatever the message. -/
theorem sha224bytes_length (msg : List Nat) : (sha224bytes msg).length = 28 := by
  simp [sha224bytes, wordToBytes]

/-- Every digest byte is below 256. -/
theorem sha224bytes_lt (msg : List Nat) : ∀ b ∈ sha224bytes msg, b < 256 := by
  intro b hb
  simp only [sha224bytes, List.flatMap, List.mem_flatten, List.mem_map] at hb
  obtain ⟨l, ⟨w, _, hw⟩, hbl⟩ := hb
  subst hw
  simp only [wordToBytes, List.mem_cons, List.not_mem_nil, or_false] at hbl
  rcases hbl with h | h | h | h <;> subst h <;> exact Nat.mod_lt _ (by norm_num)

/-- The hex form of a byte list has two characters per byte. -/
theorem hexOfBytes_length (bs : List Nat) : (hexOfBytes bs).length = 2 * bs.length := by
  simp only [hexOfBytes, String.length_mk]
  induction bs with
  | nil => rfl
  | cons b rest ih => simp [byteHex, ih]; omega

/-- Hex digits of values below 16 are lowercase hex characters. -/
theorem hexDigit_mem (n : Nat) (h : n < 16) : hexDigit n ∈ "0123456789abcdef".data := by
  interval_cases n <;> decide

/-- Every character of the hex form of a byte list is a lowercase hex
character. -/
theorem hexOfBytes_chars (bs : List Nat) (hb : ∀ b ∈ bs, b < 256) :
    ∀ c ∈ (hexOfBytes bs).data, c ∈ "0123456789abcdef".data := by
  intro c hc
  simp only [hexOfBytes, List.flatMap, List.mem_flatten, List.mem_map] at hc
  obtain ⟨l, ⟨b, hbmem, hbl⟩, hcl⟩ := hc
  subst hbl
  have hblt := hb b hbmem
  simp only [byteHex, List.mem_cons, List.not_mem_nil, or_false] at hcl
  rcases hcl with h | h <;> subst h
  · exact hexDigit_mem _ (Nat.div_lt_of_lt_mul (by omega))
  · exact hexDigit_mem _ (Nat.mod_lt _ (by norm_num))

/-- The composite key built by `identifier_augment` is never empty. -/
theorem composite_ne_empty (fld v : String) : fld ++ ":" ++ n3 v ≠ "" := by
  intro hcon
  have := congrArg String.data hcon
  simp [n3, String.data_append] at this

/-- Setting a field value never touches the identity state. -/
theorem fieldSet_idst (s : DocState) (name v : String) :
    (fieldSet s name v).idst = s.idst := by
  unfold fieldSet
  split <;> rfl

/-- Clearing a field never touches the identity state. -/
theorem fieldClear_idst (s : DocState) (name : String) :
    (fieldClear s name).idst = s.idst := by
  unfold fieldClear
  split <;> rfl

/-- Setting a field value never touches the four identifying fields other
than the one named. -/
theorem fieldSet_getField_ne (s : DocState) (name v f : String) (h : f ≠ name) :
    getField (fieldSet s name v) f = getField s f := by
  unfold fieldSet getField
  split <;> first | rfl | (split <;> simp_all)

/-- The `pmid`/`pubmed` block preserves the identity state. -/
theorem initPmid_idst (a : DocArgs) (s t : DocState) (h : initPmid a s = .ok t) :
    t.idst = s.idst := by
  cases hp : a.pmid with
  | some p =>
      simp only [initPmid, hp, Except.ok.injEq] at h
      subst h; exact fieldSet_idst s "pmid" p
  | none =>
      cases hpub : a.pubmed with
      | none =>
          simp only [initPmid, hp, hpub, Except.ok.injEq] at h
          subst h; rfl
      | some pub =>
          by_cases hh : take4 pub = "http"
          · cases hres : pubmed_uri_to_pmid pub with
            | error e =>
                simp [initPmid, hp, hpub, hh, hres, Bind.bind, Except.bind] at h
            | ok p =>
                simp only [initPmid, hp, hpub, if_pos hh, hres, Bind.bind, Except.bind,
                  Except.ok.injEq] at h
                subst h; exact fieldSet_idst s "pmid" p
          · simp only [initPmid, hp, hpub, if_neg hh, Except.ok.injEq] at h
            subst h; exact fieldSet_idst s "pmid" pub

/-- The `wbid` block preserves the identity state. -/
theorem initWbid_idst (a : DocArgs) (s t : DocState) (h : initWbid a s = .ok t) :
    t.idst = s.idst := by
  cases hres : initWbidArg a with
  | error e => simp [initWbid, hres, Bind.bind, Except.bind] at h
  | ok o =>
      cases o with
      | some w =>
          simp only [initWbid, hres, Bind.bind, Except.bind, Except.ok.injEq] at h
          subst h; exact fieldSet_idst s "wbid" w
      | none =>
          simp only [initWbid, hres, Bind.bind, Except.bind, Except.ok.injEq] at h
          subst h; rfl

/-- The `doi` block preserves the identity state. -/
theorem initDoi_idst (a : DocArgs) (s t : DocState) (h : initDoi a s = .ok t) :
    t.idst = s.idst := by
  cases hd : a.doi with
  | none =>
      simp only [initDoi, hd, Except.ok.injEq] at h
      subst h; rfl
  | some d =>
      by_cases hh : take4 d = "http"
      · cases hres : doi_uri_to_doi d with
        | error e => simp [initDoi, hd, hh, hres, Bind.bind, Except.bind] at h
        | ok o =>
            cases o with
            | some bare =>
                simp only [initDoi, hd, if_pos hh, hres, Bind.bind, Except.bind,
                  Except.ok.injEq] at h
                subst h; exact fieldSet_idst s "doi" bare
            | none =>
                simp only [initDoi, hd, if_pos hh, hres, Bind.bind, Except.bind,
                  Except.ok.injEq] at h
                subst h; exact fieldSet_idst s "doi" d
      · simp only [initDoi, hd, if_neg hh, Except.ok.injEq] at h
        subst h; exact fieldSet_idst s "doi" d

/-- The `year`/`date`/`title`/`author`/`uri` tail preserves the identity
state. -/
theorem initRest_idst (a : DocArgs) (s : DocState) : (initRest a s).idst = s.idst := by
  cases hy : a.year <;> cases hd : a.date <;> cases ht : a.title <;>
    cases hau : a.author <;> cases hu : a.uri <;>
      simp [initRest, hy, hd, ht, hau, hu, fieldSet_idst]

/-- A successful `Document.__init__` stores exactly the identity state the
mixin produced. -/
theorem Document_init_idst (ns : String) (a : DocArgs) (s : DocState) (st : IdState)
    (hmix : IdMixin_init ns a.ident a.key = .ok st)
    (h : Document_init ns a = .ok s) : s.idst = st := by
  unfold Document_init at h
  rw [hmix] at h
  simp only [Bind.bind, Except.bind] at h
  cases h1 : initPmid a (emptyFields st) with
  | error e => simp [h1] at h
  | ok s1 =>
      cases h2 : initWbid a s1 with
      | error e => simp [h1, h2] at h
      | ok s2 =>
          cases h3 : initDoi a s2 with
          | error e => simp [h1, h2, h3] at h
          | ok s3 =>
              simp only [h1, h2, h3, Except.ok.injEq] at h
              subst h
              rw [initRest_idst, initDoi_idst a s2 s3 h3, initWbid_idst a s1 s2 h2,
                initPmid_idst a (emptyFields st) s1 h1]
              rfl

/-- Folding any sequence of field mutations never touches the identity
state. -/
theorem foldl_fieldSet_idst (fs : List (String × String)) (t : DocState) :
    (fs.foldl (fun st p => fieldSet st p.1 p.2) t).idst = t.idst := by
  induction fs generalizing t with
  | nil => rfl
  | cons p rest ih => rw [List.foldl_cons, ih, fieldSet_idst]

/-- When some remaining precedence field has a value, the
`identifier_augment` loop succeeds (the composite key is never empty, so
`make_identifier` cannot raise). -/
theorem identifier_augment_from_ok (ns : String) (s : DocState) (l : List String)
    (h : l.any (fun x => !(getField s x).isEmpty) = true) :
    ∃ u, identifier_augment_from ns s l = .ok u := by
  induction l with
  | nil => simp at h
  | cons x xs ih =>
      cases hg : getField s x with
      | cons v vs =>
          refine ⟨ns ++ ("a" ++ sha224hex (x ++ ":" ++ n3 v)), ?_⟩
          simp only [identifier_augment_from, hg, make_identifier]
          rw [if_pos (composite_ne_empty x v)]
      | nil =>
          simp only [identifier_augment_from, hg]
          apply ih
          simp only [List.any_cons, hg, List.isEmpty_nil, Bool.not_true, Bool.false_or] at h
          exact h

/-- The `identifier_augment` loop, characterized by `find?`: the field used
is the first in the remaining precedence list with a defined value. -/
theorem identifier_augment_from_find (ns : String) (s : DocState) (l : List String) :
    identifier_augment_from ns s l =
      match l.find? (fun f => !(getField s f).isEmpty) with
      | some fld => make_identifier ns (fld ++ ":" ++ n3 ((getField s fld).headD ""))
      | none => .error .identifierMissing := by
  induction l with
  | nil => rfl
  | cons x xs ih =>
      cases hg : getField s x with
      | nil =>
          rw [List.find?_cons_of_neg _ (by simp [hg])]
          simp only [identifier_augment_from, hg]
          exact ih
      | cons v vs =>
          rw [List.find?_cons_of_pos _ (by simp [hg])]
          simp only [identifier_augment_from, hg]
          simp [hg]

/-! ## C1 — precedence walk of `identifier_augment` -/

/-- C1: on a `Document` with no explicit identifier and no key,
`identifier_augment` derives `make_identifier` of
`"<field>:" ++ n3(<first defined value>)` for the first field of
`id_precedence` with a defined value, and which field is chosen depends only
on which fields currently have values — any state with the same has-a-value
pattern chooses the same field. -/
theorem identifier_augment_precedence (ns : String) (s : DocState) (fld : String)
    (_hid : s.idst._id = none) (_hkey : s.idst._key = none)
    (hfind : id_precedence.find? (fun f => !(getField s f).isEmpty) = some fld) :
    identifier_augment ns s =
      make_identifier ns (fld ++ ":" ++ n3 ((getField s fld).headD "")) ∧
    ∀ t : DocState,
      (∀ f : String, (getField t f).isEmpty = (getField s f).isEmpty) →
      id_precedence.find? (fun f => !(getField t f).isEmpty) = some fld := by
  constructor
  · rw [identifier_augment, identifier_augment_from_find, hfind]
  · intro t ht
    have hp : (fun f => !(getField t f).isEmpty) = (fun f => !(getField s f).isEmpty) :=
      funext fun f => by rw [ht f]
    rw [hp]
    exact hfind

/-- C1 (witness): a document with `pmid` and `wbid` populated derives from
`pmid`, the first populated field in precedence order. -/
theorem identifier_augment_precedence_witness :
    identifier_augment "http://example.org/"
        ⟨⟨none, none⟩, [], ["24098140"], ["WBPaper00044287"], [], [], [], []⟩ =
      make_identifier "http://example.org/"
        ("pmid" ++ ":" ++
          n3 ((getField ⟨⟨none, none⟩, [], ["24098140"], ["WBPaper00044287"], [], [], [], []⟩
            "pmid").headD "")) ∧
    ∀ t : DocState,
      (∀ f : String, (getField t f).isEmpty =
        (getField ⟨⟨none, none⟩, [], ["24098140"], ["WBPaper00044287"], [], [], [], []⟩
          f).isEmpty) →
      id_precedence.find? (fun f => !(getField t f).isEmpty) = some "pmid" :=
  identifier_augment_precedence "http://example.org/"
    ⟨⟨none, none⟩, [], ["24098140"], ["WBPaper00044287"], [], [], [], []⟩ "pmid"
    rfl rfl (by rfl)

/-! ## C2 — an explicit identifier is returned verbatim, forever -/

/-- C2: after construction with `ident` (and no key), reading `identifier`
returns the explicit identifier verbatim, and it still does after any
sequence of field mutations. -/
theorem explicit_identifier_verbatim (ns i : String) (a : DocArgs) (s : DocState)
    (ha : a.ident = some i) (hk : a.key = none)
    (h : Document_init ns a = .ok s) :
    Document_identifier ns s = .ok i ∧
    ∀ fs : List (String × String),
      Document_identifier ns (fs.foldl (fun st p => fieldSet st p.1 p.2) s) = .ok i := by
  have hmix : IdMixin_init ns a.ident a.key = .ok ⟨some i, none⟩ := by
    rw [ha, hk]; rfl
  have hid : s.idst = ⟨some i, none⟩ := Document_init_idst ns a s _ hmix h
  have hone : ∀ t : DocState, t.idst = ⟨some i, none⟩ →
      Document_identifier ns t = .ok i := by
    intro t ht
    simp [Document_identifier, mixinIdentifier, ht]
  exact ⟨hone s hid, fun fs => hone _ (by rw [foldl_fieldSet_idst, hid])⟩

/-- C2 (witness): the statement at a concrete explicit identifier. -/
theorem explicit_identifier_verbatim_witness :
    Document_identifier "http://example.org/"
        (emptyFields ⟨some "http://example.org/doc1", none⟩) =
      .ok "http://example.org/doc1" ∧
    ∀ fs : List (String × String),
      Document_identifier "http://example.org/"
          (fs.foldl (fun st p => fieldSet st p.1 p.2)
            (emptyFields ⟨some "http://example.org/doc1", none⟩)) =
        .ok "http://example.org/doc1" :=
  explicit_identifier_verbatim "http://example.org/" "http://example.org/doc1"
    { ident := some "http://example.org/doc1" } _ rfl rfl rfl

/-! ## C3 — undefined entities fail, populated entities are defined -/

/-- When the `uri` argument is absent, the `year`/`date`/`title`/`author`
tail of `Document.__init__` leaves all four identifying fields untouched. -/
theorem initRest_identifying (a : DocArgs) (s : DocState) (hu : a.uri = none) :
    (initRest a s).doi = s.doi ∧ (initRest a s).pmid = s.pmid ∧
    (initRest a s).wbid = s.wbid ∧ (initRest a s).uri = s.uri := by
  cases hy : a.year <;> cases hd : a.date <;> cases ht : a.title <;>
    cases hau : a.author <;>
      simp [initRest, hy, hd, ht, hau, hu, fieldSet]

/-- C3: every construction with neither `ident` nor `key` and none of the
identifying-field arguments — the non-identifying `author`/`title`/`year`/
`date` arguments arbitrary — yields a state whose `defined` is `False` and
whose `identifier` read raises `IdentifierMissingException`; and any state
with a defined value in some `id_precedence` field has `defined` `True`. -/
theorem undefined_document_behavior (ns : String) (a : DocArgs) (s : DocState)
    (hident : a.ident = none) (hkey : a.key = none)
    (hdoi : a.doi = none) (hpmid : a.pmid = none) (hpubmed : a.pubmed = none)
    (hwbid : a.wbid = none) (hwbaseid : a.wormbaseid = none) (hwbase : a.wormbase = none)
    (huri : a.uri = none)
    (h : Document_init ns a = .ok s) :
    Document_defined s = false ∧
    Document_identifier ns s = .error .identifierMissing ∧
    ∀ t : DocState, (∃ f ∈ id_precedence, getField t f ≠ []) →
      Document_defined t = true := by
  have hinit : Document_init ns a = .ok (initRest a (emptyFields ⟨none, none⟩)) := by
    simp [Document_init, IdMixin_init, hident, hkey, initPmid, hpmid, hpubmed,
      initWbid, initWbidArg, hwbase, hwbaseid, hwbid, initDoi, hdoi,
      Bind.bind, Except.bind, Pure.pure, Except.pure]
  rw [hinit] at h
  have hs := Except.ok.inj h
  subst hs
  obtain ⟨hdoiF, hpmidF, hwbidF, huriF⟩ :=
    initRest_identifying a (emptyFields ⟨none, none⟩) huri
  have hids : (initRest a (emptyFields ⟨none, none⟩)).idst = ⟨none, none⟩ := by
    rw [initRest_idst]; rfl
  have hdef : defined_augment (initRest a (emptyFields ⟨none, none⟩)) = false := by
    simp only [defined_augment, id_precedence, List.any_cons, List.any_nil,
      getField, hdoiF, hpmidF, hwbidF, huriF]
    rfl
  refine ⟨?_, ?_, ?_⟩
  · simp [Document_defined, mixinDefined, hids, hdef]
  · simp [Document_identifier, mixinIdentifier, hids, hdef]
  · rintro t ⟨f, hf, hne⟩
    simp only [Document_defined, mixinDefined, defined_augment, Bool.or_eq_true,
      List.any_eq_true]
    refine Or.inr ⟨f, hf, ?_⟩
    cases hg : getField t f with
    | nil => exact absurd hg hne
    | cons x xs => simp

/-- C3 (witness): a construction with `author`, `title` and `year` populated
but no identifying field — inside the scope of the claim — is undefined and
its `identifier` read fails. -/
theorem undefined_document_behavior_witness :
    Document_defined ⟨⟨none, none⟩, [], [], [], [], ["A"], ["T"], ["1999"]⟩ = false ∧
    Document_identifier "http://example.org/"
        ⟨⟨none, none⟩, [], [], [], [], ["A"], ["T"], ["1999"]⟩ =
      .error .identifierMissing ∧
    ∀ t : DocState, (∃ f ∈ id_precedence, getField t f ≠ []) →
      Document_defined t = true :=
  undefined_document_behavior "http://example.org/"
    { author := some "A", title := some "T", year := some "1999" }
    ⟨⟨none, none⟩, [], [], [], [], ["A"], ["T"], ["1999"]⟩
    rfl rfl rfl rfl rfl rfl rfl rfl rfl rfl

/-! ## C8 — `defined` never fails and predicts `identifier` -/

/-- C8: reading `defined` never raises — it is a total boolean over every
entity state — and it answers exactly whether the `identifier` read
succeeds: `true` states yield an identifier, `false` states raise
`IdentifierMissingException`. -/
theorem defined_never_fails (ns : String) (s : DocState) :
    (Document_defined s = true ∧ ∃ u, Document_identifier ns s = .ok u) ∨
    (Document_defined s = false ∧
      Document_identifier ns s = .error .identifierMissing) := by
  cases hid : s.idst._id with
  | some i =>
      exact Or.inl ⟨by simp [Document_defined, mixinDefined, hid], i,
        by simp [Document_identifier, mixinIdentifier, hid]⟩
  | none =>
      by_cases hdef : defined_augment s = true
      · left
        refine ⟨by simp [Document_defined, mixinDefined, hid, hdef], ?_⟩
        obtain ⟨u, hu⟩ := identifier_augment_from_ok ns s id_precedence hdef
        exact ⟨u, by simp [Document_identifier, mixinIdentifier, hid, hdef,
          identifier_augment, hu]⟩
      · right
        have hdef' : defined_augment s = false := by
          simpa using hdef
        exact ⟨by simp [Document_defined, mixinDefined, hid, hdef'],
          by simp [Document_identifier, mixinIdentifier, hid, hdef']⟩

/-- C8 (witness): the statement at a concrete state. -/
theorem defined_never_fails_witness :
    (Document_defined (emptyFields ⟨none, none⟩) = true ∧
      ∃ u, Document_identifier "http://example.org/" (emptyFields ⟨none, none⟩) = .ok u) ∨
    (Document_defined (emptyFields ⟨none, none⟩) = false ∧
      Document_identifier "http://example.org/" (emptyFields ⟨none, none⟩) =
        .error .identifierMissing) :=
  defined_never_fails "http://example.org/" (emptyFields ⟨none, none⟩)

/-! ## C4 — shape of the hashed-path identifier -/

/-- C4 (counterexample): the hashed-path payload after the `"a"` tag is not
57 hex characters — for the key `"x"` its length is 56 (a SHA-224 digest is
28 bytes, two hex characters each). -/
theorem make_identifier_payload_not_57 :
    ¬ ∃ d : String, make_identifier "http://example.org/" "x" =
        .ok ("http://example.org/" ++ ("a" ++ d)) ∧ d.length = 57 := by
  rintro ⟨d, hd, hl⟩
  have hmk : make_identifier "http://example.org/" "x" =
      .ok ("http://example.org/" ++ ("a" ++ sha224hex "x")) := by
    simp [make_identifier]
  rw [hmk] at hd
  have hstr := Except.ok.inj hd
  have hlen := congrArg String.length hstr
  have h56 : (sha224hex "x").length = 56 := by
    simpa [sha224hex, sha224bytes_length] using hexOfBytes_length (sha224bytes (utf8Encode "x"))
  simp only [String.length_append] at hlen
  omega

/-- C4 (amended): for every key with a non-empty string form,
`make_identifier` returns the namespace followed by the literal tag `"a"`
followed by the lowercase hex SHA-224 digest of the UTF-8 encoding of the
key string, and that payload after the `"a"` tag is 56 hex characters. -/
theorem make_identifier_shape (ns key : String) (h : key ≠ "") :
    make_identifier ns key = .ok (ns ++ ("a" ++ sha224hex key)) ∧
    (sha224hex key).length = 56 ∧
    ∀ c ∈ (sha224hex key).data, c ∈ "0123456789abcdef".data := by
  refine ⟨by simp [make_identifier, h], ?_, ?_⟩
  · simpa [sha224hex, sha224bytes_length]
      using hexOfBytes_length (sha224bytes (utf8Encode key))
  · exact hexOfBytes_chars _ (sha224bytes_lt _)

/-- C4 (witness): the amended statement at the key `"x"`. -/
theorem make_identifier_shape_witness :
    ("x" : String) ≠ "" ∧
    (make_identifier "http://example.org/" "x" =
        .ok ("http://example.org/" ++ ("a" ++ sha224hex "x")) ∧
      (sha224hex "x").length = 56 ∧
      ∀ c ∈ (sha224hex "x").data, c ∈ "0123456789abcdef".data) :=
  ⟨by decide, make_identifier_shape "http://example.org/" "x" (by decide)⟩

/-! ## C5 — `key` and `ident` are mutually exclusive -/

/-- C5: constructing a `Document` with both `key` and `ident` raises the
mutual-exclusivity `Exception`; the check precedes every assignment of
`_id`/`_key`, so no identity state is produced. -/
theorem init_both_key_ident_fails (ns i : String) (k : Key) (a : DocArgs)
    (hi : a.ident = some i) (hk : a.key = some k) :
    Document_init ns a =
      .error (.exn "Only one of 'key' or 'ident' can be given to Context") := by
  simp [Document_init, IdMixin_init, hi, hk, Bind.bind, Except.bind]

/-- C5 (witness): the failure at concrete arguments. -/
theorem init_both_key_ident_fails_witness :
    Document_init "http://example.org/"
        { ident := some "http://example.org/doc1", key := some (Key.str "k") } =
      .error (.exn "Only one of 'key' or 'ident' can be given to Context") :=
  init_both_key_ident_fails "http://example.org/" "http://example.org/doc1"
    (Key.str "k") _ rfl rfl

/-! ## C6 — empty keys -/

/-- C6 (counterexample): `set_key` with the empty plain string does *not*
fail — the direct path percent-encodes it without validation, assigning the
bare namespace as the identifier and `""` as the key. -/
theorem set_key_empty_string_succeeds :
    set_key "http://example.org/" ⟨none, none⟩ (Key.str "") =
      .ok ⟨some "http://example.org/", some ""⟩ := by
  rfl

/-- C6 (amended): a *non-string* key whose `str()` form is empty makes
`set_key` fail with the `ValueError` from `make_identifier`, assigning
nothing; a plain-string key — the empty string included — always takes the
direct path and succeeds with the percent-encoded identifier. -/
theorem set_key_empty_behavior (ns : String) (st : IdState) (s : String) :
    set_key ns st (Key.other "") =
      .error (.valueError "Cannot use falsy value  to make an identifier") ∧
    set_key ns st (Key.str s) = .ok ⟨some (ns ++ quote s), some s⟩ := by
  constructor
  · simp [set_key, make_identifier, Bind.bind, Except.bind]
  · rfl

/-! ## C7 — a PubMed URL and its bare PMID collapse to one identity -/

/-- C7: constructing with `pubmed` set to a URL carrying the PMID as the
third segment of its path produces exactly the state — and hence the identifier — of
constructing with `pmid` set to that bare PMID. -/
theorem pubmed_url_collapses (ns url p : String)
    (h1 : take4 url = "http") (h2 : pubmed_uri_to_pmid url = .ok p) :
    Document_init ns { pubmed := some url } = Document_init ns { pmid := some p } ∧
    ∀ s t : DocState,
      Document_init ns { pubmed := some url } = .ok s →
      Document_init ns { pmid := some p } = .ok t →
      Document_identifier ns s = Document_identifier ns t := by
  have heq : Document_init ns { pubmed := some url } =
      Document_init ns { pmid := some p } := by
    simp [Document_init, IdMixin_init, initPmid, initWbid, initWbidArg, initDoi,
      initRest, h1, h2, Bind.bind, Except.bind]
  refine ⟨heq, fun s t hs ht => ?_⟩
  rw [heq, ht] at hs
  rw [Except.ok.inj hs]

/-- C7 (witness): the PubMed URL of the example in the spec and the bare PMID
`"24098140"`. -/
theorem pubmed_url_collapses_witness :
    take4 "http://www.ncbi.nlm.nih.gov/pubmed/24098140" = "http" ∧
    pubmed_uri_to_pmid "http://www.ncbi.nlm.nih.gov/pubmed/24098140" = .ok "24098140" ∧
    (Document_init "http://example.org/"
        { pubmed := some "http://www.ncbi.nlm.nih.gov/pubmed/24098140" } =
      Document_init "http://example.org/" { pmid := some "24098140" } ∧
    ∀ s t : DocState,
      Document_init "http://example.org/"
          { pubmed := some "http://www.ncbi.nlm.nih.gov/pubmed/24098140" } = .ok s →
      Document_init "http://example.org/" { pmid := some "24098140" } = .ok t →
      Document_identifier "http://example.org/" s =
        Document_identifier "http://example.org/" t) :=
  ⟨rfl, rfl, pubmed_url_collapses "http://example.org/"
    "http://www.ncbi.nlm.nih.gov/pubmed/24098140" "24098140" rfl rfl⟩

/-! ## C9 — WormBase enrichment multiplicity errors -/

/-- C9: `update_from_wormbase` raises the named
`WormbaseRetrievalException` when zero or more than one WormBase ID is
attached, and performs its network request exactly when one is — every
successful run requested the overview URL of the single attached ID. -/
theorem wormbase_multiplicity (fetch : String → WBJson) (re : Bool) (s : DocState) :
    (s.wbid = [] →
      update_from_wormbase fetch re s =
        .error (.wormbaseRetrieval
          ("There is no Wormbase ID attached to this Document." ++
           " So no data can be retrieved"))) ∧
    (2 ≤ s.wbid.length →
      update_from_wormbase fetch re s =
        .error (.wormbaseRetrieval
          ("There is more than one Wormbase ID attached to this Document." ++
           " Please try with just one Wormbase ID"))) ∧
    (∀ t reqs, update_from_wormbase fetch re s = .ok (t, reqs) →
      ∃ w, s.wbid = [w] ∧
        reqs = ["http://api.wormbase.org/rest/field/paper/" ++ w ++ "/overview"]) := by
  refine ⟨fun h0 => by simp [update_from_wormbase, h0], ?_, ?_⟩
  · intro hlen
    match hw : s.wbid with
    | [] => rw [hw] at hlen; simp at hlen
    | [w] => rw [hw] at hlen; simp at hlen
    | w1 :: w2 :: rest => simp [update_from_wormbase, hw]
  · intro t reqs h
    match hw : s.wbid with
    | [] => simp [update_from_wormbase, hw] at h
    | [w] =>
        refine ⟨w, rfl, ?_⟩
        cases hov : (fetch ("http://api.wormbase.org/rest/field/paper/" ++ w ++
            "/overview")).overview with
        | some f =>
            simp only [update_from_wormbase, hw, hov, Except.ok.injEq,
              Prod.mk.injEq] at h
            exact h.2.symm
        | none =>
            simp only [update_from_wormbase, hw, hov, Except.ok.injEq,
              Prod.mk.injEq] at h
            exact h.2.symm
    | w1 :: w2 :: rest => simp [update_from_wormbase, hw] at h

/-- C9 (witness): the statement at a concrete fetch function and state. -/
theorem wormbase_multiplicity_witness :
    ((emptyFields ⟨none, none⟩).wbid = [] →
      update_from_wormbase (fun _ => { overview := none }) false
          (emptyFields ⟨none, none⟩) =
        .error (.wormbaseRetrieval
          ("There is no Wormbase ID attached to this Document." ++
           " So no data can be retrieved"))) ∧
    (2 ≤ (emptyFields ⟨none, none⟩).wbid.length →
      update_from_wormbase (fun _ => { overview := none }) false
          (emptyFields ⟨none, none⟩) =
        .error (.wormbaseRetrieval
          ("There is more than one Wormbase ID attached to this Document." ++
           " Please try with just one Wormbase ID"))) ∧
    (∀ t reqs,
      update_from_wormbase (fun _ => { overview := none }) false
          (emptyFields ⟨none, none⟩) = .ok (t, reqs) →
      ∃ w, (emptyFields ⟨none, none⟩).wbid = [w] ∧
        reqs = ["http://api.wormbase.org/rest/field/paper/" ++ w ++ "/overview"]) :=
  wormbase_multiplicity (fun _ => { overview := none }) false (emptyFields ⟨none, none⟩)

/-! ## C10 — DOI URL handling is asymmetric -/

/-- C10: a `doi` argument starting with `"http"` is converted only when the
netloc contains `doi.org` (then the bare DOI from the path is stored);
for any other host the conversion yields `None`, construction succeeds, and
the full URL is stored verbatim — so such a URL and the bare DOI it names
derive two different identifiers (their composite keys hash apart). -/
theorem doi_url_asymmetry (ns url bare : String)
    (h1 : take4 url = "http")
    (h2 : doi_uri_to_doi url = .ok none)
    (h3 : take4 bare ≠ "http")
    (h4 : sha224hex ("doi" ++ ":" ++ n3 url) ≠ sha224hex ("doi" ++ ":" ++ n3 bare)) :
    (∀ u b : String, take4 u = "http" → doi_uri_to_doi u = .ok (some b) →
      Document_init ns { doi := some u } =
        .ok (fieldSet (emptyFields ⟨none, none⟩) "doi" b)) ∧
    Document_init ns { doi := some url } =
      .ok (fieldSet (emptyFields ⟨none, none⟩) "doi" url) ∧
    Document_init ns { doi := some bare } =
      .ok (fieldSet (emptyFields ⟨none, none⟩) "doi" bare) ∧
    ∀ s t : DocState,
      Document_init ns { doi := some url } = .ok s →
      Document_init ns { doi := some bare } = .ok t →
      Document_identifier ns s ≠ Document_identifier ns t := by
  have hident : ∀ v : String,
      Document_identifier ns ⟨⟨none, none⟩, [v], [], [], [], [], [], []⟩ =
        .ok (ns ++ ("a" ++ sha224hex ("doi" ++ ":" ++ n3 v))) := by
    intro v
    have hstep : Document_identifier ns ⟨⟨none, none⟩, [v], [], [], [], [], [], []⟩ =
        make_identifier ns ("doi" ++ ":" ++ n3 v) := rfl
    rw [hstep]
    simp only [make_identifier]
    rw [if_pos (composite_ne_empty "doi" v)]
  refine ⟨?_, ?_, ?_, ?_⟩
  · intro u b hu hb
    simp [Document_init, IdMixin_init, initPmid, initWbid, initWbidArg, initDoi,
      initRest, hu, hb, Bind.bind, Except.bind, Pure.pure, Except.pure]
  · simp [Document_init, IdMixin_init, initPmid, initWbid, initWbidArg, initDoi,
      initRest, h1, h2, Bind.bind, Except.bind, Pure.pure, Except.pure]
  · simp [Document_init, IdMixin_init, initPmid, initWbid, initWbidArg, initDoi,
      initRest, h3, Bind.bind, Except.bind, Pure.pure, Except.pure]
  · intro s t hs ht hcon
    have hsv : Document_init ns { doi := some url } =
        .ok (fieldSet (emptyFields ⟨none, none⟩) "doi" url) := by
      simp [Document_init, IdMixin_init, initPmid, initWbid, initWbidArg, initDoi,
        initRest, h1, h2, Bind.bind, Except.bind, Pure.pure, Except.pure]
    have htv : Document_init ns { doi := some bare } =
        .ok (fieldSet (emptyFields ⟨none, none⟩) "doi" bare) := by
      simp [Document_init, IdMixin_init, initPmid, initWbid, initWbidArg, initDoi,
        initRest, h3, Bind.bind, Except.bind, Pure.pure, Except.pure]
    rw [hsv] at hs
    rw [htv] at ht
    rw [← Except.ok.inj hs, ← Except.ok.inj ht] at hcon
    have hs' : fieldSet (emptyFields ⟨none, none⟩) "doi" url =
        ⟨⟨none, none⟩, [url], [], [], [], [], [], []⟩ := rfl
    have ht' : fieldSet (emptyFields ⟨none, none⟩) "doi" bare =
        ⟨⟨none, none⟩, [bare], [], [], [], [], [], []⟩ := rfl
    rw [hs', ht', hident url, hident bare] at hcon
    have hok := Except.ok.inj hcon
    have hdata := congrArg String.data hok
    simp only [String.data_append] at hdata
    have hdata2 := List.append_cancel_left hdata
    have hdata3 := List.append_cancel_left hdata2
    exact h4 (String.ext hdata3)

/-- C10 (witness): a non-`doi.org` DOI URL and the bare DOI it names. -/
theorem doi_url_asymmetry_witness :
    take4 "http://example.org/10.1000/xyz" = "http" ∧
    doi_uri_to_doi "http://example.org/10.1000/xyz" = .ok none ∧
    take4 "10.1000/xyz" ≠ "http" ∧
    sha224hex ("doi" ++ ":" ++ n3 "http://example.org/10.1000/xyz") ≠
      sha224hex ("doi" ++ ":" ++ n3 "10.1000/xyz") ∧
    ((∀ u b : String, take4 u = "http" → doi_uri_to_doi u = .ok (some b) →
        Document_init "http://example.org/" { doi := some u } =
          .ok (fieldSet (emptyFields ⟨none, none⟩) "doi" b)) ∧
      Document_init "http://example.org/" { doi := some "http://example.org/10.1000/xyz" } =
        .ok (fieldSet (emptyFields ⟨none, none⟩) "doi" "http://example.org/10.1000/xyz") ∧
      Document_init "http://example.org/" { doi := some "10.1000/xyz" } =
        .ok (fieldSet (emptyFields ⟨none, none⟩) "doi" "10.1000/xyz") ∧
      ∀ s t : DocState,
        Document_init "http://example.org/"
            { doi := some "http://example.org/10.1000/xyz" } = .ok s →
        Document_init "http://example.org/" { doi := some "10.1000/xyz" } = .ok t →
        Document_identifier "http://example.org/" s ≠
          Document_identifier "http://example.org/" t) :=
  ⟨rfl, rfl, by decide, by decide,
    doi_url_asymmetry "http://example.org/" "http://example.org/10.1000/xyz"
      "10.1000/xyz" rfl rfl (by decide) (by decide)⟩

end PyOpenWorm
